import Mathlib

/-!
Shallow embedding of the article-assignment and milestone-lineage logic of
the ScienceNewsResearch backend (src/cq/views.py and src/cq/serializers.py).

Rows of the relational schema become Lean structures; Django querysets
become list filters over an explicit database state `DB`; the `reduce`
folds of the Python code become `List.foldl` with the exact same step
functions; exceptions become an explicit `PyError` type.
-/

namespace CQ

/-- A row of the Research table (only its primary key matters here). -/
structure Article where
  id : Nat
  researchId : Nat
deriving DecidableEq

/-- A Sentence belongs to one Article. -/
structure Sentence where
  id : Nat
  articleId : Nat
deriving DecidableEq

/-- A Profile belongs to one User and is optionally assigned to an Article. -/
structure Profile where
  id : Nat
  userId : Nat
  articleId : Option Nat
deriving DecidableEq

/-- A Take is a (User, Article, Question) working session. -/
structure Take where
  id : Nat
  userId : Nat
  articleId : Nat
  questionId : Nat
deriving DecidableEq

/-- A Milestone belongs to one Take; `found` is a nullable marker,
`copied_from` a nullable back-reference to another Milestone's id,
`response_at` a timestamp (modelled as `Nat`). -/
structure Milestone where
  id : Nat
  takeId : Nat
  userId : Nat
  found : Option Nat
  copied_from : Option Nat
  response_at : Nat
deriving DecidableEq

/-- A Response links a Sentence to a Milestone (and the Take and User). -/
structure Response where
  id : Nat
  takeId : Nat
  milestoneId : Nat
  sentenceId : Nat
  userId : Nat
deriving DecidableEq

/-- The database state: Researches and Users are kept as lists of ids,
the other tables as lists of rows, in stable (insertion) order. -/
structure DB where
  researches : List Nat
  users : List Nat
  articles : List Article
  sentences : List Sentence
  profiles : List Profile
  takes : List Take
  milestones : List Milestone
  responses : List Response
deriving DecidableEq

/-- `x.milestones` for a Take `x`: the milestones whose `take` FK is `x`. -/
def milestonesOf (db : DB) (t : Take) : List Milestone :=
  db.milestones.filter (fun m => decide (m.takeId = t.id))

/-- `m.responses` for a Milestone `m`: the responses whose `milestone` FK is `m`. -/
def responsesOf (db : DB) (m : Milestone) : List Response :=
  db.responses.filter (fun r => decide (r.milestoneId = m.id))

/-- The lambda of the `reduce` in `suggestions` (src/cq/views.py:115) and in
`TakeBindMilestoneSerializer.create` (src/cq/serializers.py:165):
`lambda x, y: y if x.response_at < y.response_at else x`. -/
def latestStep (x y : Milestone) : Milestone :=
  if x.response_at < y.response_at then y else x

/-- `None if len(l) is 0 else reduce(latestStep, l)` over a materialized list. -/
def reduceLatest (l : List Milestone) : Option Milestone :=
  match l with
  | [] => none
  | x :: xs => some (xs.foldl latestStep x)

/-- The candidate pipeline of `TakeBindMilestoneViewSet.suggestions`
(src/cq/views.py:108-113): Takes with a different article and the same
question as the reference take; per take, its milestones filtered by
`copied_from=None`, `exclude(found=None)`, `exclude(responses=None)`;
flattened in order. -/
def suggestionCandidates (db : DB) (take : Take) : List Milestone :=
  let related_takes :=
    (db.takes.filter (fun x => decide (x.articleId ≠ take.articleId))).filter
      (fun x => decide (x.questionId = take.questionId))
  let milestones := related_takes.map (fun x =>
    (((milestonesOf db x).filter (fun m => decide (m.copied_from = none))).filter
        (fun m => decide (m.found ≠ none))).filter
      (fun m => decide (responsesOf db m ≠ [])))
  milestones.flatten

/-- The Milestone Lineage Resolver (src/cq/views.py:108-115). -/
def resolve_latest_sibling_milestone (db : DB) (take : Take) : Option Milestone :=
  reduceLatest (suggestionCandidates db take)

/-- The `suggestions` endpoint's payload: the winning milestone's responses,
or the empty queryset (src/cq/views.py:116-120). -/
def suggestions (db : DB) (take : Take) : List Response :=
  match resolve_latest_sibling_milestone db take with
  | none => []
  | some m => responsesOf db m

/-- Python exceptions surfaced by these code paths.  `emptyCollectionError`
is the error class named by the specification; it is included so that
claims about it can be stated, whether or not the code ever raises it. -/
inductive PyError where
  | typeError (msg : String)
  | validationError (msg : String)
  | emptyCollectionError (msg : String)
deriving DecidableEq

/-- `article.profiles.count()`: how many profiles are assigned to `a`. -/
def profilesCount (db : DB) (a : Article) : Nat :=
  (db.profiles.filter (fun p => decide (p.articleId = some a.id))).length

/-- The lambda of the `reduce` in `UserViewSet.create` (src/cq/views.py:169):
`lambda x, y: y if x.profiles.count() > y.profiles.count() else x`. -/
def balanceStep (db : DB) (x y : Article) : Article :=
  if profilesCount db x > profilesCount db y then y else x

/-- The Assignment Balancer: `reduce(balanceStep, articles)`
(src/cq/views.py:168-169).  Python's `reduce` over an empty sequence with
no initial value raises `TypeError`. -/
def balance_assign (db : DB) (articles : List Article) : Except PyError Article :=
  match articles with
  | [] => Except.error (PyError.typeError "reduce() of empty iterable with no initial value")
  | a :: rest => Except.ok (rest.foldl (balanceStep db) a)

/-- `Article.objects.filter(research=rid)`: the articles of one research. -/
def articlesOfResearch (db : DB) (rid : Nat) : List Article :=
  db.articles.filter (fun a => decide (a.researchId = rid))

/-- Greatest id in a list of ids (0 when empty). -/
def maxId (l : List Nat) : Nat := l.foldr max 0

/-- Fresh primary key for a new Take row. -/
def freshTakeId (db : DB) : Nat := maxId (db.takes.map Take.id) + 1

/-- Fresh primary key for a new Milestone row. -/
def freshMilestoneId (db : DB) : Nat := maxId (db.milestones.map Milestone.id) + 1

/-- Fresh primary key for a new Response row. -/
def freshResponseId (db : DB) : Nat := maxId (db.responses.map Response.id) + 1

/-- Fresh primary key for a new User row. -/
def freshUserId (db : DB) : Nat := maxId db.users + 1

/-- Fresh primary key for a new Profile row. -/
def freshProfileId (db : DB) : Nat := maxId (db.profiles.map Profile.id) + 1

/-- `Sentence.objects.get(pk=sid)` existence check: the generic primary-key
validation performed by `ResponseSerializer` on its `sentence` field. -/
def sentenceExists (db : DB) (sid : Nat) : Bool :=
  db.sentences.any (fun s => decide (s.id = sid))

/-- The Response rows built by the loop of `renew_milestone`
(src/cq/views.py:88-97): one row per element of `sentences`, in order,
each pointing at the take, the new milestone and the acting user. -/
def mkRenewResponses (baseId takeId milestoneId userId : Nat) :
    List Nat → List Response
  | [] => []
  | sid :: rest =>
    { id := baseId, takeId := takeId, milestoneId := milestoneId,
      sentenceId := sid, userId := userId } ::
      mkRenewResponses (baseId + 1) takeId milestoneId userId rest

/-- The Milestone Renewal Operation, `TakeBindMilestoneViewSet.renew_milestone`
(src/cq/views.py:74-103).  The milestone is saved before the responses are
validated, so on a bad sentence id the milestone row persists with no
responses and a `ValidationError` is raised; on success every listed
sentence id yields one Response row, in order, duplicates kept. -/
def renew_milestone (db : DB) (take : Take) (sentences : List Nat)
    (userId : Nat) (found copied_from : Option Nat) (now : Nat) :
    DB × Except PyError (Milestone × List Response) :=
  let milestone : Milestone :=
    { id := freshMilestoneId db, takeId := take.id, userId := userId,
      found := found, copied_from := copied_from, response_at := now }
  let db1 := { db with milestones := db.milestones ++ [milestone] }
  if sentences.all (sentenceExists db) then
    let rs := mkRenewResponses (freshResponseId db) take.id milestone.id userId sentences
    ({ db1 with responses := db1.responses ++ rs }, Except.ok (milestone, rs))
  else
    (db1, Except.error (PyError.validationError "Invalid pk - object does not exist."))

/-- The candidate pipeline of `TakeBindMilestoneSerializer.create`
(src/cq/serializers.py:157-163): Takes with the SAME article and the same
question as the data of the take being created; per take, its milestones
filtered by `copied_from=None` and `exclude(found=None)` (no condition on
responses); flattened in order. -/
def createCandidates (db : DB) (articleId questionId : Nat) : List Milestone :=
  let related_takes :=
    (db.takes.filter (fun x => decide (x.articleId = articleId))).filter
      (fun x => decide (x.questionId = questionId))
  let milestones := related_takes.map (fun x =>
    ((milestonesOf db x).filter (fun m => decide (m.copied_from = none))).filter
      (fun m => decide (m.found ≠ none)))
  milestones.flatten

/-- The `latest_milestone` of `TakeBindMilestoneSerializer.create`
(src/cq/serializers.py:164-165). -/
def createLatest (db : DB) (articleId questionId : Nat) : Option Milestone :=
  reduceLatest (createCandidates db articleId questionId)

/-- The copy loop of `TakeBindMilestoneSerializer.create`
(src/cq/serializers.py:174-178): each source response is saved again with
`pk = None` (fresh id), the new milestone and the new user; its `take` and
`sentence` fields are left as they were. -/
def copyResponses (baseId milestoneId userId : Nat) :
    List Response → List Response
  | [] => []
  | r :: rest =>
    { r with id := baseId, milestoneId := milestoneId, userId := userId } ::
      copyResponses (baseId + 1) milestoneId userId rest

/-- The Take-Creation Seeding Operation, `TakeBindMilestoneSerializer.create`
(src/cq/serializers.py:155-183): create the Take; if a latest candidate
milestone exists, create a Milestone copying its `found` and pointing
`copied_from` at it and deep-copy its responses; otherwise create one bare
Milestone. -/
def create_take_with_seed (db : DB) (userId articleId questionId : Nat)
    (now : Nat) : DB × Take :=
  match createLatest db articleId questionId with
  | some lm =>
    let take : Take :=
      { id := freshTakeId db, userId := userId, articleId := articleId,
        questionId := questionId }
    let db1 := { db with takes := db.takes ++ [take] }
    let milestone : Milestone :=
      { id := freshMilestoneId db1, takeId := take.id, userId := userId,
        found := lm.found, copied_from := some lm.id, response_at := now }
    let db2 := { db1 with milestones := db1.milestones ++ [milestone] }
    let rs := copyResponses (freshResponseId db2) milestone.id userId (responsesOf db lm)
    ({ db2 with responses := db2.responses ++ rs }, take)
  | none =>
    let take : Take :=
      { id := freshTakeId db, userId := userId, articleId := articleId,
        questionId := questionId }
    let db1 := { db with takes := db.takes ++ [take] }
    let milestone : Milestone :=
      { id := freshMilestoneId db1, takeId := take.id, userId := userId,
        found := none, copied_from := none, response_at := now }
    ({ db1 with milestones := db1.milestones ++ [milestone] }, take)

/-- Outcome of `UserViewSet.create`: an explicit 400 response, an
uncaught exception, or a created user id. -/
inductive UserCreateResult where
  | badRequest (msg : String)
  | serverError (e : PyError)
  | ok (userId : Nat)
deriving DecidableEq

/-- The fresh, unassigned Profile that saving the new User brings along. -/
def blankProfile (db : DB) : Profile :=
  { id := freshProfileId db, userId := freshUserId db, articleId := none }

/-- The state right after `serializer.save()` in `UserViewSet.create`:
the new User row and its blank Profile. -/
def dbWithNewUser (db : DB) : DB :=
  { db with users := db.users ++ [freshUserId db],
            profiles := db.profiles ++ [blankProfile db] }

/-- `Article.objects.filter(research=research)` where `research` is the
queryset `Research.objects.filter(pk=research_id)`. -/
def researchArticles (db : DB) (research : List Nat) : List Article :=
  db.articles.filter (fun a => research.any (fun r => decide (a.researchId = r)))

/-- `Research.objects.filter(pk=research_id)` of `UserViewSet.create`
(src/cq/views.py:159): when the field is absent, `pk=None` matches no row. -/
def researchFilter (db : DB) (research_field : Option Nat) : List Nat :=
  db.researches.filter (fun r =>
    match research_field with
    | some i => decide (r = i)
    | none => false)

/-- `UserViewSet.create` (src/cq/views.py:157-177): pop `research` from the
request, 400 if `Research.objects.filter(pk=research_id)` is empty;
otherwise save the User, and when `research_id is not None` run the
Assignment Balancer over the research's articles and save the Profile with
the chosen article. -/
def user_create (db : DB) (research_field : Option Nat) : DB × UserCreateResult :=
  if (researchFilter db research_field).isEmpty then
    (db, UserCreateResult.badRequest "Select any research type.")
  else
    match research_field with
    | none => (dbWithNewUser db, UserCreateResult.ok (freshUserId db))
    | some _ =>
      match balance_assign (dbWithNewUser db)
          (researchArticles db (researchFilter db research_field)) with
      | Except.error e => (dbWithNewUser db, UserCreateResult.serverError e)
      | Except.ok target =>
        ({ dbWithNewUser db with
            profiles := db.profiles ++
              [{ blankProfile db with articleId := some target.id }] },
         UserCreateResult.ok (freshUserId db))

/-! ### General lemmas about the two `reduce` folds -/

theorem le_latestStep_left (a y : Milestone) :
    a.response_at ≤ (latestStep a y).response_at := by
  unfold latestStep; split <;> omega

theorem le_latestStep_right (a y : Milestone) :
    y.response_at ≤ (latestStep a y).response_at := by
  unfold latestStep; split <;> omega

theorem foldl_latestStep_mem (a : Milestone) (l : List Milestone) :
    List.foldl latestStep a l ∈ a :: l := by
  induction l generalizing a with
  | nil => simp
  | cons y ys ih =>
    simp only [List.foldl_cons]
    rcases List.mem_cons.mp (ih (latestStep a y)) with h1 | h1
    · rw [h1]
      by_cases hc : a.response_at < y.response_at
      · simp [latestStep, hc]
      · simp [latestStep, hc]
    · exact List.mem_cons_of_mem _ (List.mem_cons_of_mem _ h1)

theorem foldl_latestStep_le (a : Milestone) (l : List Milestone) :
    ∀ b ∈ a :: l, b.response_at ≤ (List.foldl latestStep a l).response_at := by
  induction l generalizing a with
  | nil => intro b hb; rw [List.mem_singleton.mp hb]; simp
  | cons y ys ih =>
    intro b hb
    simp only [List.foldl_cons]
    rcases List.mem_cons.mp hb with rfl | hb'
    · exact le_trans (le_latestStep_left b y)
        (ih (latestStep b y) _ (List.mem_cons_self _ _))
    · rcases List.mem_cons.mp hb' with rfl | hb''
      · exact le_trans (le_latestStep_right a b)
          (ih (latestStep a b) _ (List.mem_cons_self _ _))
      · exact ih (latestStep a y) b (List.mem_cons_of_mem _ hb'')

theorem foldl_latestStep_split (a : Milestone) (l : List Milestone) :
    ∃ l₁ l₂, a :: l = l₁ ++ List.foldl latestStep a l :: l₂ ∧
      (∀ b ∈ l₁, b.response_at < (List.foldl latestStep a l).response_at) ∧
      (∀ b ∈ l₂, b.response_at ≤ (List.foldl latestStep a l).response_at) := by
  induction l generalizing a with
  | nil => exact ⟨[], [], rfl, by simp, by simp⟩
  | cons y ys ih =>
    simp only [List.foldl_cons]
    by_cases hc : a.response_at < y.response_at
    · have hstep : latestStep a y = y := by simp [latestStep, hc]
      rw [hstep]
      obtain ⟨l₁, l₂, hdec, h₁, h₂⟩ := ih y
      refine ⟨a :: l₁, l₂, ?_, ?_, h₂⟩
      · rw [List.cons_append, ← hdec]
      · intro b hb
        rcases List.mem_cons.mp hb with h | h
        · subst h
          have hy := foldl_latestStep_le y ys y (List.mem_cons_self _ _)
          omega
        · exact h₁ b h
    · have hstep : latestStep a y = a := by simp [latestStep, hc]
      rw [hstep]
      obtain ⟨l₁, l₂, hdec, h₁, h₂⟩ := ih a
      cases l₁ with
      | nil =>
        simp only [List.nil_append, List.cons.injEq] at hdec
        obtain ⟨ha, hys⟩ := hdec
        refine ⟨[], y :: ys, ?_, by simp, ?_⟩
        · rw [List.nil_append, ← ha]
        · intro b hb
          rcases List.mem_cons.mp hb with h | h
          · subst h; rw [← ha]; omega
          · rw [hys] at h; exact h₂ b h
      | cons c l₁x =>
        simp only [List.cons_append, List.cons.injEq] at hdec
        obtain ⟨hca, hys⟩ := hdec
        subst hca
        have har : a.response_at < (List.foldl latestStep a ys).response_at :=
          h₁ a (List.mem_cons_self _ _)
        refine ⟨a :: y :: l₁x, l₂, ?_, ?_, h₂⟩
        · rw [List.cons_append, List.cons_append, ← hys]
        · intro b hb
          rcases List.mem_cons.mp hb with h | h
          · subst h; exact har
          · rcases List.mem_cons.mp h with h2 | h2
            · subst h2; omega
            · exact h₁ b (List.mem_cons_of_mem _ h2)

theorem reduceLatest_eq_none (l : List Milestone) :
    reduceLatest l = none ↔ l = [] := by
  cases l <;> simp [reduceLatest]

theorem reduceLatest_mem {l : List Milestone} {m : Milestone}
    (h : reduceLatest l = some m) : m ∈ l := by
  cases l with
  | nil => simp [reduceLatest] at h
  | cons x xs =>
    simp only [reduceLatest, Option.some.injEq] at h
    rw [← h]; exact foldl_latestStep_mem x xs

theorem reduceLatest_split {l : List Milestone} {m : Milestone}
    (h : reduceLatest l = some m) :
    ∃ l₁ l₂, l = l₁ ++ m :: l₂ ∧
      (∀ b ∈ l₁, b.response_at < m.response_at) ∧
      (∀ b ∈ l₂, b.response_at ≤ m.response_at) := by
  cases l with
  | nil => simp [reduceLatest] at h
  | cons x xs =>
    simp only [reduceLatest, Option.some.injEq] at h
    obtain ⟨l₁, l₂, hdec, h₁, h₂⟩ := foldl_latestStep_split x xs
    rw [h] at hdec h₁ h₂
    exact ⟨l₁, l₂, hdec, h₁, h₂⟩

theorem balanceStep_le_left (db : DB) (a y : Article) :
    profilesCount db (balanceStep db a y) ≤ profilesCount db a := by
  unfold balanceStep; split <;> omega

theorem balanceStep_le_right (db : DB) (a y : Article) :
    profilesCount db (balanceStep db a y) ≤ profilesCount db y := by
  unfold balanceStep; split <;> omega

theorem foldl_balanceStep_le (db : DB) (a : Article) (l : List Article) :
    ∀ b ∈ a :: l,
      (profilesCount db (List.foldl (balanceStep db) a l)) ≤ profilesCount db b := by
  induction l generalizing a with
  | nil => intro b hb; rw [List.mem_singleton.mp hb]; simp
  | cons y ys ih =>
    intro b hb
    simp only [List.foldl_cons]
    rcases List.mem_cons.mp hb with rfl | hb'
    · exact le_trans (ih (balanceStep db b y) _ (List.mem_cons_self _ _))
        (balanceStep_le_left db b y)
    · rcases List.mem_cons.mp hb' with rfl | hb''
      · exact le_trans (ih (balanceStep db a b) _ (List.mem_cons_self _ _))
          (balanceStep_le_right db a b)
      · exact ih (balanceStep db a y) b (List.mem_cons_of_mem _ hb'')

theorem foldl_balanceStep_split (db : DB) (a : Article) (l : List Article) :
    ∃ l₁ l₂, a :: l = l₁ ++ List.foldl (balanceStep db) a l :: l₂ ∧
      (∀ b ∈ l₁,
        profilesCount db (List.foldl (balanceStep db) a l) < profilesCount db b) ∧
      (∀ b ∈ l₂,
        profilesCount db (List.foldl (balanceStep db) a l) ≤ profilesCount db b) := by
  induction l generalizing a with
  | nil => exact ⟨[], [], rfl, by simp, by simp⟩
  | cons y ys ih =>
    simp only [List.foldl_cons]
    by_cases hc : profilesCount db a > profilesCount db y
    · have hstep : balanceStep db a y = y := by simp [balanceStep, hc]
      rw [hstep]
      obtain ⟨l₁, l₂, hdec, h₁, h₂⟩ := ih y
      refine ⟨a :: l₁, l₂, ?_, ?_, h₂⟩
      · rw [List.cons_append, ← hdec]
      · intro b hb
        rcases List.mem_cons.mp hb with h | h
        · subst h
          have hy := foldl_balanceStep_le db y ys y (List.mem_cons_self _ _)
          omega
        · exact h₁ b h
    · have hstep : balanceStep db a y = a := by simp [balanceStep, hc]
      rw [hstep]
      obtain ⟨l₁, l₂, hdec, h₁, h₂⟩ := ih a
      cases l₁ with
      | nil =>
        simp only [List.nil_append, List.cons.injEq] at hdec
        obtain ⟨ha, hys⟩ := hdec
        refine ⟨[], y :: ys, ?_, by simp, ?_⟩
        · rw [List.nil_append, ← ha]
        · intro b hb
          rcases List.mem_cons.mp hb with h | h
          · subst h; rw [← ha]; omega
          · rw [hys] at h; exact h₂ b h
      | cons c l₁x =>
        simp only [List.cons_append, List.cons.injEq] at hdec
        obtain ⟨hca, hys⟩ := hdec
        subst hca
        have har : profilesCount db (List.foldl (balanceStep db) a ys) <
            profilesCount db a := h₁ a (List.mem_cons_self _ _)
        refine ⟨a :: y :: l₁x, l₂, ?_, ?_, h₂⟩
        · rw [List.cons_append, List.cons_append, ← hys]
        · intro b hb
          rcases List.mem_cons.mp hb with h | h
          · subst h; exact har
          · rcases List.mem_cons.mp h with h2 | h2
            · subst h2; omega
            · exact h₁ b (List.mem_cons_of_mem _ h2)

theorem balance_assign_split (db : DB) (articles : List Article)
    (h : articles ≠ []) :
    ∃ r l₁ l₂, balance_assign db articles = Except.ok r ∧
      articles = l₁ ++ r :: l₂ ∧
      (∀ b ∈ l₁, profilesCount db r < profilesCount db b) ∧
      (∀ b ∈ l₂, profilesCount db r ≤ profilesCount db b) := by
  cases articles with
  | nil => exact absurd rfl h
  | cons a rest =>
    obtain ⟨l₁, l₂, hdec, h₁, h₂⟩ := foldl_balanceStep_split db a rest
    exact ⟨List.foldl (balanceStep db) a rest, l₁, l₂, rfl, hdec, h₁, h₂⟩

/-! ### Membership characterizations of the two candidate pipelines -/

theorem mem_suggestionCandidates (db : DB) (t : Take) (m : Milestone) :
    m ∈ suggestionCandidates db t ↔
      ∃ x, x ∈ db.takes ∧ x.articleId ≠ t.articleId ∧
        x.questionId = t.questionId ∧ m ∈ db.milestones ∧ m.takeId = x.id ∧
        m.copied_from = none ∧ m.found ≠ none ∧ responsesOf db m ≠ [] := by
  unfold suggestionCandidates milestonesOf
  simp only [List.mem_flatten, List.mem_map, List.mem_filter, decide_eq_true_eq]
  constructor
  · rintro ⟨lst, ⟨x, ⟨⟨hx, hart⟩, hq⟩, rfl⟩, hm⟩
    simp only [List.mem_filter, decide_eq_true_eq] at hm
    exact ⟨x, by tauto⟩
  · rintro ⟨x, hx, hart, hq, hmem, htake, hcopy, hfound, hresp⟩
    refine ⟨_, ⟨x, ⟨⟨hx, hart⟩, hq⟩, rfl⟩, ?_⟩
    simp only [List.mem_filter, decide_eq_true_eq]
    tauto

theorem mem_createCandidates (db : DB) (articleId questionId : Nat)
    (m : Milestone) :
    m ∈ createCandidates db articleId questionId ↔
      ∃ x, x ∈ db.takes ∧ x.articleId = articleId ∧
        x.questionId = questionId ∧ m ∈ db.milestones ∧ m.takeId = x.id ∧
        m.copied_from = none ∧ m.found ≠ none := by
  unfold createCandidates milestonesOf
  simp only [List.mem_flatten, List.mem_map, List.mem_filter, decide_eq_true_eq]
  constructor
  · rintro ⟨lst, ⟨x, ⟨⟨hx, hart⟩, hq⟩, rfl⟩, hm⟩
    simp only [List.mem_filter, decide_eq_true_eq] at hm
    exact ⟨x, by tauto⟩
  · rintro ⟨x, hx, hart, hq, hmem, htake, hcopy, hfound⟩
    refine ⟨_, ⟨x, ⟨⟨hx, hart⟩, hq⟩, rfl⟩, ?_⟩
    simp only [List.mem_filter, decide_eq_true_eq]
    tauto

/-! ### Freshness of generated primary keys -/

theorem mem_le_maxId {n : Nat} {l : List Nat} (h : n ∈ l) : n ≤ maxId l := by
  induction l with
  | nil => cases h
  | cons x xs ih =>
    rcases List.mem_cons.mp h with rfl | h'
    · exact le_max_left _ _
    · exact le_trans (ih h') (le_max_right _ _)

theorem take_id_lt_fresh {db : DB} {t : Take} (h : t ∈ db.takes) :
    t.id < freshTakeId db :=
  Nat.lt_succ_of_le (mem_le_maxId (List.mem_map_of_mem Take.id h))

theorem milestone_id_lt_fresh {db : DB} {m : Milestone}
    (h : m ∈ db.milestones) : m.id < freshMilestoneId db :=
  Nat.lt_succ_of_le (mem_le_maxId (List.mem_map_of_mem Milestone.id h))

theorem response_id_lt_fresh {db : DB} {r : Response}
    (h : r ∈ db.responses) : r.id < freshResponseId db :=
  Nat.lt_succ_of_le (mem_le_maxId (List.mem_map_of_mem Response.id h))

/-! ### Concrete sample states used by witnesses and counterexamples -/

/-- Reference take for the resolver samples: article 1, question 1. -/
def refTake : Take := { id := 1, userId := 1, articleId := 1, questionId := 1 }

/-- Sample state with three takes on question 1 (articles 1, 2, 3) and five
milestones on the sibling takes: two eligible ones tied on `response_at`,
one with `found = none` and the globally latest timestamp, one that is a
copy, and one eligible but older. -/
def sampleResolverDB : DB := {
  researches := [1], users := [1, 2, 3],
  articles := [{ id := 1, researchId := 1 }, { id := 2, researchId := 1 },
               { id := 3, researchId := 1 }],
  sentences := [{ id := 1, articleId := 2 }],
  profiles := [],
  takes := [refTake,
            { id := 2, userId := 2, articleId := 2, questionId := 1 },
            { id := 3, userId := 3, articleId := 3, questionId := 1 }],
  milestones := [
    { id := 1, takeId := 2, userId := 2, found := some 5, copied_from := none,
      response_at := 10 },
    { id := 2, takeId := 3, userId := 3, found := some 5, copied_from := none,
      response_at := 10 },
    { id := 3, takeId := 2, userId := 2, found := none, copied_from := none,
      response_at := 99 },
    { id := 4, takeId := 2, userId := 2, found := some 5, copied_from := some 1,
      response_at := 99 },
    { id := 5, takeId := 2, userId := 2, found := some 5, copied_from := none,
      response_at := 7 }],
  responses := [
    { id := 1, takeId := 2, milestoneId := 1, sentenceId := 1, userId := 2 },
    { id := 2, takeId := 3, milestoneId := 2, sentenceId := 1, userId := 3 },
    { id := 3, takeId := 2, milestoneId := 3, sentenceId := 1, userId := 2 },
    { id := 4, takeId := 2, milestoneId := 4, sentenceId := 1, userId := 2 },
    { id := 5, takeId := 2, milestoneId := 5, sentenceId := 1, userId := 2 }] }

/-- The milestone the resolver picks out of `sampleResolverDB`: the earlier
of the two eligible milestones tied at `response_at = 10`. -/
def topMilestone : Milestone :=
  { id := 1, takeId := 2, userId := 2, found := some 5, copied_from := none,
    response_at := 10 }

/-- Sample state for the balancer: research 1 owns article 1 (two assigned
profiles) and article 2 (one assigned profile); research 2 owns nothing. -/
def sampleBalancerDB : DB := {
  researches := [1, 2], users := [1, 2, 3],
  articles := [{ id := 1, researchId := 1 }, { id := 2, researchId := 1 }],
  sentences := [], takes := [], milestones := [], responses := [],
  profiles := [{ id := 1, userId := 1, articleId := some 1 },
               { id := 2, userId := 2, articleId := some 1 },
               { id := 3, userId := 3, articleId := some 2 }] }

/-! ### C1: the Milestone Lineage Resolver -/

/-- C1: for every reference Take the Resolver's candidate set is exactly the
milestones of Takes sharing the question but on a different article that
have `copied_from = none`, `found ≠ none` and at least one Response; the
Resolver returns `none` exactly when this set is empty, and otherwise some
candidate that splits the set so that every earlier candidate has strictly
smaller `response_at` and every later one has at most its `response_at` —
i.e. the greatest `response_at` wins and ties keep the earliest-encountered
candidate, since the fold replaces only on strict `<`. -/
theorem resolver_correct (db : DB) (t : Take) :
    (resolve_latest_sibling_milestone db t = none ↔
      suggestionCandidates db t = []) ∧
    (∀ m : Milestone, m ∈ suggestionCandidates db t ↔
      ∃ x, x ∈ db.takes ∧ x.articleId ≠ t.articleId ∧
        x.questionId = t.questionId ∧ m ∈ db.milestones ∧ m.takeId = x.id ∧
        m.copied_from = none ∧ m.found ≠ none ∧ responsesOf db m ≠ []) ∧
    (∀ m, resolve_latest_sibling_milestone db t = some m →
      ∃ l₁ l₂, suggestionCandidates db t = l₁ ++ m :: l₂ ∧
        (∀ b ∈ l₁, b.response_at < m.response_at) ∧
        (∀ b ∈ l₂, b.response_at ≤ m.response_at)) :=
  ⟨reduceLatest_eq_none _, fun m => mem_suggestionCandidates db t m,
    fun _ h => reduceLatest_split h⟩

/-- Witness for C1 at `sampleResolverDB`: the resolver does return a
milestone there, and the split property holds for it. -/
theorem resolver_correct_witness :
    ∃ l₁ l₂, suggestionCandidates sampleResolverDB refTake =
        l₁ ++ topMilestone :: l₂ ∧
      (∀ b ∈ l₁, b.response_at < topMilestone.response_at) ∧
      (∀ b ∈ l₂, b.response_at ≤ topMilestone.response_at) :=
  (resolver_correct sampleResolverDB refTake).2.2 topMilestone (by decide)

/-! ### C3: the Assignment Balancer -/

/-- C3: for every Research with at least one Article, the balancer returns
the Article splitting the Research's article list so that every earlier
article has a strictly greater assigned-profile count and every later one
has at least its count — i.e. the minimum count wins and ties keep the
earliest-encountered article, since the reduction replaces only on strict
`>`. -/
theorem balance_assign_min (db : DB) (rid : Nat)
    (h : articlesOfResearch db rid ≠ []) :
    ∃ r l₁ l₂, balance_assign db (articlesOfResearch db rid) = Except.ok r ∧
      articlesOfResearch db rid = l₁ ++ r :: l₂ ∧
      (∀ b ∈ l₁, profilesCount db r < profilesCount db b) ∧
      (∀ b ∈ l₂, profilesCount db r ≤ profilesCount db b) :=
  balance_assign_split db _ h

/-- Witness for C3 at `sampleBalancerDB`, research 1 (counts 2 and 1). -/
theorem balance_assign_min_witness :
    ∃ r l₁ l₂,
      balance_assign sampleBalancerDB
          (articlesOfResearch sampleBalancerDB 1) = Except.ok r ∧
      articlesOfResearch sampleBalancerDB 1 = l₁ ++ r :: l₂ ∧
      (∀ b ∈ l₁, profilesCount sampleBalancerDB r <
        profilesCount sampleBalancerDB b) ∧
      (∀ b ∈ l₂, profilesCount sampleBalancerDB r ≤
        profilesCount sampleBalancerDB b) :=
  balance_assign_min sampleBalancerDB 1 (by decide)

/-! ### C6: the Resolver never returns an ineligible milestone -/

/-- C6: any milestone returned by the Resolver has `found ≠ none` and
`copied_from = none`, however late the `response_at` of an ineligible
milestone may be. -/
theorem resolver_eligibility (db : DB) (t : Take) (m : Milestone)
    (h : resolve_latest_sibling_milestone db t = some m) :
    m.found ≠ none ∧ m.copied_from = none := by
  obtain ⟨x, -, -, -, -, -, hcopy, hfound, -⟩ :=
    (mem_suggestionCandidates db t m).mp (reduceLatest_mem h)
  exact ⟨hfound, hcopy⟩

/-- Witness for C6: in `sampleResolverDB` the ineligible milestones carry
the globally latest `response_at = 99`, yet the returned one is eligible. -/
theorem resolver_eligibility_witness :
    topMilestone.found ≠ none ∧ topMilestone.copied_from = none :=
  resolver_eligibility sampleResolverDB refTake topMilestone (by decide)

/-! ### C9: the balancer on a Research with zero Articles -/

/-- Discriminator for the error class the specification names. -/
def isEmptyCollectionError : Except PyError Article → Bool := fun e =>
  match e with
  | Except.error (PyError.emptyCollectionError _) => true
  | _ => false

/-- Counterexample to C9: on research 2 of `sampleBalancerDB`, which owns no
articles, the balancer fails with Python's `TypeError` from `reduce()` over
an empty sequence, not with an `EmptyCollectionError`. -/
theorem balancer_empty_counterexample :
    balance_assign sampleBalancerDB (articlesOfResearch sampleBalancerDB 2) =
      Except.error
        (PyError.typeError "reduce() of empty iterable with no initial value") ∧
    isEmptyCollectionError
      (balance_assign sampleBalancerDB
        (articlesOfResearch sampleBalancerDB 2)) = false := by
  exact ⟨rfl, rfl⟩

/-- C9 amended: invoking the balancer on a Research with zero Articles fails,
but with the unhandled `TypeError` that Python's `reduce` raises on an empty
sequence (no descriptive caller-visible error, though also no silent
recovery), not with a named `EmptyCollectionError`. -/
theorem balancer_empty_raises (db : DB) (rid : Nat)
    (h : articlesOfResearch db rid = []) :
    balance_assign db (articlesOfResearch db rid) =
      Except.error
        (PyError.typeError "reduce() of empty iterable with no initial value") := by
  rw [h]; rfl

/-- Witness for the amended C9 at `sampleBalancerDB`, research 2. -/
theorem balancer_empty_raises_witness :
    balance_assign sampleBalancerDB (articlesOfResearch sampleBalancerDB 2) =
      Except.error
        (PyError.typeError "reduce() of empty iterable with no initial value") :=
  balancer_empty_raises sampleBalancerDB 2 (by decide)

/-! ### Lemmas about the response rows built by the renewal loop -/

theorem mkRenewResponses_length (takeId mid uid : Nat) :
    ∀ (sentences : List Nat) (baseId : Nat),
      (mkRenewResponses baseId takeId mid uid sentences).length =
        sentences.length := by
  intro sentences
  induction sentences with
  | nil => intro baseId; rfl
  | cons s rest ih =>
    intro baseId
    simp only [mkRenewResponses, List.length_cons, ih]

theorem mkRenewResponses_mem (takeId mid uid : Nat) :
    ∀ (sentences : List Nat) (baseId : Nat),
      ∀ r ∈ mkRenewResponses baseId takeId mid uid sentences,
        r.milestoneId = mid ∧ r.userId = uid ∧ r.takeId = takeId := by
  intro sentences
  induction sentences with
  | nil => intro baseId r hr; cases hr
  | cons s rest ih =>
    intro baseId r hr
    rcases List.mem_cons.mp hr with h | h
    · subst h; exact ⟨rfl, rfl, rfl⟩
    · exact ih (baseId + 1) r h

theorem mkRenewResponses_get (takeId mid uid : Nat) :
    ∀ (sentences : List Nat) (baseId i : Nat)
      (h1 : i < (mkRenewResponses baseId takeId mid uid sentences).length)
      (h2 : i < sentences.length),
      (mkRenewResponses baseId takeId mid uid sentences).get ⟨i, h1⟩ =
        { id := baseId + i, takeId := takeId, milestoneId := mid,
          sentenceId := sentences.get ⟨i, h2⟩, userId := uid } := by
  intro sentences
  induction sentences with
  | nil => intro baseId i h1 h2; exact absurd h2 (by simp)
  | cons s rest ih =>
    intro baseId i h1 h2
    cases i with
    | zero => simp [mkRenewResponses]
    | succ j =>
      have h1x : j < (mkRenewResponses (baseId + 1) takeId mid uid rest).length := by
        simpa [mkRenewResponses] using h1
      have h2x : j < rest.length := by simpa using h2
      have := ih (baseId + 1) j h1x h2x
      simp only [mkRenewResponses, List.get_cons_succ]
      rw [this]
      have : baseId + 1 + j = baseId + (j + 1) := by omega
      simp [this]

/-- Rows already in the store never reference a fresh milestone id, given
referential integrity of the `milestone` foreign key. -/
theorem old_responses_filter_nil (db : DB)
    (hfk : ∀ r ∈ db.responses, ∃ m ∈ db.milestones, r.milestoneId = m.id) :
    db.responses.filter
      (fun r => decide (r.milestoneId = freshMilestoneId db)) = [] := by
  rw [List.filter_eq_nil_iff]
  intro r hr
  obtain ⟨m, hm, heq⟩ := hfk r hr
  simp only [decide_eq_true_eq, heq]
  exact Nat.ne_of_lt (milestone_id_lt_fresh hm)

/-! ### C7: the Milestone Renewal Operation -/

/-- C7: for every Take and every sequence of sentence ids that passes the
(generic) validation, `renew_milestone` returns a fresh Milestone together
with exactly one Response per element of the sequence, in the same order,
duplicates kept, each linked to the new Milestone, the Take and the acting
user; and in the new state the Milestone's response set is exactly that
list.  The empty sequence always passes validation, so
`renew_milestone take []` succeeds with zero Responses. -/
theorem renew_milestone_responses (db : DB) (take : Take)
    (sentences : List Nat) (userId : Nat) (found copied_from : Option Nat)
    (now : Nat) (hval : sentences.all (sentenceExists db) = true)
    (hfk : ∀ r ∈ db.responses, ∃ m ∈ db.milestones, r.milestoneId = m.id) :
    ∃ m rs,
      (renew_milestone db take sentences userId found copied_from now).2 =
        Except.ok (m, rs) ∧
      rs.length = sentences.length ∧
      (∀ i (h1 : i < rs.length) (h2 : i < sentences.length),
        (rs.get ⟨i, h1⟩).sentenceId = sentences.get ⟨i, h2⟩ ∧
        (rs.get ⟨i, h1⟩).milestoneId = m.id ∧
        (rs.get ⟨i, h1⟩).userId = userId ∧
        (rs.get ⟨i, h1⟩).takeId = take.id) ∧
      responsesOf
        (renew_milestone db take sentences userId found copied_from now).1 m
        = rs := by
  refine ⟨{ id := freshMilestoneId db, takeId := take.id, userId := userId,
            found := found, copied_from := copied_from, response_at := now },
          mkRenewResponses (freshResponseId db) take.id (freshMilestoneId db)
            userId sentences, ?_, mkRenewResponses_length _ _ _ _ _, ?_, ?_⟩
  · unfold renew_milestone
    simp [hval]
  · intro i h1 h2
    rw [mkRenewResponses_get take.id (freshMilestoneId db) userId sentences
      (freshResponseId db) i h1 h2]
    exact ⟨rfl, rfl, rfl, rfl⟩
  · unfold renew_milestone responsesOf
    simp only [hval, if_true]
    rw [List.filter_append, old_responses_filter_nil db hfk, List.nil_append,
      List.filter_eq_self]
    intro r hr
    simpa using (mkRenewResponses_mem take.id (freshMilestoneId db) userId
      sentences (freshResponseId db) r hr).1

/-- Witness for C7: two duplicate sentence ids yield two ordered Responses. -/
theorem renew_milestone_responses_witness :
    ∃ m rs,
      (renew_milestone sampleResolverDB refTake [1, 1] 1 none none 5).2 =
        Except.ok (m, rs) ∧
      rs.length = ([1, 1] : List Nat).length ∧
      (∀ i (h1 : i < rs.length) (h2 : i < ([1, 1] : List Nat).length),
        (rs.get ⟨i, h1⟩).sentenceId = ([1, 1] : List Nat).get ⟨i, h2⟩ ∧
        (rs.get ⟨i, h1⟩).milestoneId = m.id ∧
        (rs.get ⟨i, h1⟩).userId = 1 ∧
        (rs.get ⟨i, h1⟩).takeId = refTake.id) ∧
      responsesOf (renew_milestone sampleResolverDB refTake [1, 1] 1 none none 5).1 m
        = rs :=
  renew_milestone_responses sampleResolverDB refTake [1, 1] 1 none none 5
    (by decide) (by decide)

/-! ### C8: validation of the renewal operation -/

/-- Take used for the renewal validation sample: it sits on article 1. -/
def renewTake : Take := { id := 1, userId := 1, articleId := 1, questionId := 1 }

/-- Sample state for renewal validation: the only Sentence (id 1) belongs to
article 2, not to `renewTake`'s article 1. -/
def renewDB : DB := {
  researches := [1], users := [1],
  articles := [{ id := 1, researchId := 1 }, { id := 2, researchId := 1 }],
  sentences := [{ id := 1, articleId := 2 }],
  profiles := [], milestones := [], responses := [],
  takes := [renewTake] }

/-- Counterexample to C8: sentence 1 exists but belongs to article 2, while
`renewTake` is on article 1, so by the claim the renewal must fail with
`ValidationError`; the code only checks that the primary key exists and
succeeds, creating the Milestone and its Response. -/
theorem renew_article_check_counterexample :
    renewDB.sentences = [{ id := 1, articleId := 2 }] ∧
    renewTake.articleId = 1 ∧
    (renew_milestone renewDB renewTake [1] 1 none none 5).2 =
      Except.ok
        ({ id := 1, takeId := 1, userId := 1, found := none,
           copied_from := none, response_at := 5 },
         [{ id := 1, takeId := 1, milestoneId := 1, sentenceId := 1,
            userId := 1 }]) := by
  exact ⟨rfl, rfl, rfl⟩

/-- C8 amended: the renewal operation fails with `ValidationError` exactly
when some given sentence id does not resolve to an existing Sentence row —
whether the Sentence belongs to the Take's article is not checked, since the
source delegates validation to the generic primary-key check — and succeeds
(creating the Milestone and its Responses) when every id exists. -/
theorem renew_milestone_validation (db : DB) (take : Take)
    (sentences : List Nat) (userId : Nat) (found copied_from : Option Nat)
    (now : Nat) :
    ((renew_milestone db take sentences userId found copied_from now).2 =
        Except.error
          (PyError.validationError "Invalid pk - object does not exist.") ↔
      sentences.all (sentenceExists db) = false) ∧
    (sentences.all (sentenceExists db) = true →
      ∃ m rs,
        (renew_milestone db take sentences userId found copied_from now).2 =
          Except.ok (m, rs)) := by
  unfold renew_milestone
  by_cases h : sentences.all (sentenceExists db) = true
  · simp [h]
  · simp only [Bool.not_eq_true] at h
    simp [h]

/-- Witness for the amended C8: a nonexistent sentence id (7) makes the
renewal fail with `ValidationError`. -/
theorem renew_milestone_validation_witness :
    (renew_milestone renewDB renewTake [7] 1 none none 5).2 =
      Except.error
        (PyError.validationError "Invalid pk - object does not exist.") :=
  (renew_milestone_validation renewDB renewTake [7] 1 none none 5).1.mpr
    (by decide)

/-! ### Lemmas about the deep-copy loop and freshly created rows -/

theorem copyResponses_length (mid uid : Nat) :
    ∀ (l : List Response) (baseId : Nat),
      (copyResponses baseId mid uid l).length = l.length := by
  intro l
  induction l with
  | nil => intro baseId; rfl
  | cons r rest ih => intro baseId; simp only [copyResponses, List.length_cons, ih]

theorem copyResponses_mem (mid uid : Nat) :
    ∀ (l : List Response) (baseId : Nat),
      ∀ r ∈ copyResponses baseId mid uid l,
        r.milestoneId = mid ∧ r.userId = uid ∧ baseId ≤ r.id := by
  intro l
  induction l with
  | nil => intro baseId r hr; cases hr
  | cons x rest ih =>
    intro baseId r hr
    rcases List.mem_cons.mp hr with h | h
    · subst h; exact ⟨rfl, rfl, le_refl _⟩
    · obtain ⟨h1, h2, h3⟩ := ih (baseId + 1) r h
      exact ⟨h1, h2, by omega⟩

theorem copyResponses_get (mid uid : Nat) :
    ∀ (l : List Response) (baseId i : Nat)
      (h1 : i < (copyResponses baseId mid uid l).length) (h2 : i < l.length),
      (copyResponses baseId mid uid l).get ⟨i, h1⟩ =
        { l.get ⟨i, h2⟩ with id := baseId + i, milestoneId := mid, userId := uid } := by
  intro l
  induction l with
  | nil => intro baseId i h1 h2; exact absurd h2 (by simp)
  | cons x rest ih =>
    intro baseId i h1 h2
    cases i with
    | zero => simp [copyResponses]
    | succ j =>
      have h1x : j < (copyResponses (baseId + 1) mid uid rest).length := by
        simpa [copyResponses] using h1
      have h2x : j < rest.length := by simpa using h2
      simp only [copyResponses, List.get_cons_succ]
      rw [ih (baseId + 1) j h1x h2x]
      have : baseId + 1 + j = baseId + (j + 1) := by omega
      simp [this]

/-- In a state whose milestone table is the old one plus a single row on a
freshly numbered take, that row is the fresh take's whole milestone set. -/
theorem milestonesOf_append_fresh (db db2 : DB) (take : Take) (m : Milestone)
    (hmil : db2.milestones = db.milestones ++ [m])
    (htid : take.id = freshTakeId db) (hm : m.takeId = take.id)
    (hfk : ∀ x ∈ db.milestones, ∃ t ∈ db.takes, x.takeId = t.id) :
    milestonesOf db2 take = [m] := by
  unfold milestonesOf
  rw [hmil, List.filter_append]
  have h1 : db.milestones.filter (fun x => decide (x.takeId = take.id)) = [] := by
    rw [List.filter_eq_nil_iff]
    intro x hx
    obtain ⟨t, ht, heq⟩ := hfk x hx
    simp only [decide_eq_true_eq, heq, htid]
    exact Nat.ne_of_lt (take_id_lt_fresh ht)
  rw [h1, List.nil_append]
  simp [hm]

/-- In a state whose response table is the old one plus rows that all point
at a freshly numbered milestone, those rows are that milestone's whole
response set. -/
theorem responsesOf_append_fresh (db db2 : DB) (m : Milestone)
    (rs : List Response) (hresp : db2.responses = db.responses ++ rs)
    (hmid : m.id = freshMilestoneId db)
    (hall : ∀ r ∈ rs, r.milestoneId = m.id)
    (hfk : ∀ r ∈ db.responses, ∃ x ∈ db.milestones, r.milestoneId = x.id) :
    responsesOf db2 m = rs := by
  unfold responsesOf
  rw [hresp, List.filter_append]
  have h1 : db.responses.filter (fun r => decide (r.milestoneId = m.id)) = [] := by
    rw [List.filter_eq_nil_iff]
    intro r hr
    obtain ⟨x, hx, heq⟩ := hfk r hr
    simp only [decide_eq_true_eq, heq, hmid]
    exact Nat.ne_of_lt (milestone_id_lt_fresh hx)
  rw [h1, List.nil_append, List.filter_eq_self]
  intro r hr
  simpa using hall r hr

/-- Unfolding of the seeding operation when no candidate milestone exists. -/
theorem create_seed_none_eq (db : DB) (u a q now : Nat)
    (hcl : createLatest db a q = none) :
    create_take_with_seed db u a q now =
      ({ db with
          takes := db.takes ++
            [{ id := freshTakeId db, userId := u, articleId := a,
               questionId := q }],
          milestones := db.milestones ++
            [{ id := freshMilestoneId db, takeId := freshTakeId db,
               userId := u, found := none, copied_from := none,
               response_at := now }] },
       { id := freshTakeId db, userId := u, articleId := a,
         questionId := q }) := by
  unfold create_take_with_seed
  rw [hcl]
  rfl

/-- Unfolding of the seeding operation when a candidate milestone exists. -/
theorem create_seed_some_eq (db : DB) (u a q now : Nat) (lm : Milestone)
    (hcl : createLatest db a q = some lm) :
    create_take_with_seed db u a q now =
      ({ db with
          takes := db.takes ++
            [{ id := freshTakeId db, userId := u, articleId := a,
               questionId := q }],
          milestones := db.milestones ++
            [{ id := freshMilestoneId db, takeId := freshTakeId db,
               userId := u, found := lm.found, copied_from := some lm.id,
               response_at := now }],
          responses := db.responses ++
            copyResponses (freshResponseId db) (freshMilestoneId db) u
              (responsesOf db lm) },
       { id := freshTakeId db, userId := u, articleId := a,
         questionId := q }) := by
  unfold create_take_with_seed
  rw [hcl]
  rfl

/-! ### C4: the seeding operation always leaves exactly one milestone -/

/-- C4: immediately after `create_take_with_seed`, the returned Take owns
exactly one Milestone (given referential integrity of the incoming state's
foreign keys); when no lineage source was found it is an empty milestone —
no `found`, no `copied_from`, no Responses — and when a source `lm` was
found it carries `lm.found` and `copied_from = lm.id`. -/
theorem create_take_one_milestone (db : DB) (u a q now : Nat)
    (hfkM : ∀ x ∈ db.milestones, ∃ t ∈ db.takes, x.takeId = t.id)
    (hfkR : ∀ r ∈ db.responses, ∃ x ∈ db.milestones, r.milestoneId = x.id) :
    ∃ m, milestonesOf (create_take_with_seed db u a q now).1
        (create_take_with_seed db u a q now).2 = [m] ∧
      (createLatest db a q = none → m.found = none ∧ m.copied_from = none ∧
        responsesOf (create_take_with_seed db u a q now).1 m = []) ∧
      (∀ lm, createLatest db a q = some lm →
        m.found = lm.found ∧ m.copied_from = some lm.id) := by
  cases hcl : createLatest db a q with
  | none =>
    rw [create_seed_none_eq db u a q now hcl]
    refine ⟨_, milestonesOf_append_fresh db _ _ _ rfl rfl rfl hfkM, ?_, ?_⟩
    · intro _
      exact ⟨rfl, rfl,
        responsesOf_append_fresh db _ _ [] (by simp) rfl (by simp) hfkR⟩
    · intro lm h
      exact Option.noConfusion h
  | some lm =>
    rw [create_seed_some_eq db u a q now lm hcl]
    refine ⟨_, milestonesOf_append_fresh db _ _ _ rfl rfl rfl hfkM, ?_, ?_⟩
    · intro h
      exact Option.noConfusion h
    · intro lm2 h
      cases h
      exact ⟨rfl, rfl⟩

/-! ### C5: the copied milestone is a deep copy of its source -/

/-- C5: when the seeding operation finds a source milestone `lm`, the new
Take's single Milestone has `found = lm.found`, `copied_from = lm.id` and
belongs to the new user, and its Response set mirrors `lm`'s responses:
same length, same Sentence ids in the same order, every copy owned by the
new user and pointing at the new Milestone, with primary keys distinct
from every pre-existing Response's. -/
theorem create_take_deep_copy (db : DB) (u a q now : Nat) (lm : Milestone)
    (hcl : createLatest db a q = some lm)
    (hfkM : ∀ x ∈ db.milestones, ∃ t ∈ db.takes, x.takeId = t.id)
    (hfkR : ∀ r ∈ db.responses, ∃ x ∈ db.milestones, r.milestoneId = x.id) :
    ∃ m rs, milestonesOf (create_take_with_seed db u a q now).1
        (create_take_with_seed db u a q now).2 = [m] ∧
      m.found = lm.found ∧ m.copied_from = some lm.id ∧ m.userId = u ∧
      responsesOf (create_take_with_seed db u a q now).1 m = rs ∧
      rs.length = (responsesOf db lm).length ∧
      (∀ i (h1 : i < rs.length) (h2 : i < (responsesOf db lm).length),
        (rs.get ⟨i, h1⟩).sentenceId =
          ((responsesOf db lm).get ⟨i, h2⟩).sentenceId ∧
        (rs.get ⟨i, h1⟩).milestoneId = m.id ∧
        (rs.get ⟨i, h1⟩).userId = u) ∧
      (∀ r ∈ rs, ∀ r0 ∈ db.responses, r.id ≠ r0.id) := by
  rw [create_seed_some_eq db u a q now lm hcl]
  refine ⟨_,
    copyResponses (freshResponseId db) (freshMilestoneId db) u
      (responsesOf db lm),
    milestonesOf_append_fresh db _ _ _ rfl rfl rfl hfkM,
    rfl, rfl, rfl,
    responsesOf_append_fresh db _ _ _ rfl rfl
      (fun r hr => (copyResponses_mem _ _ _ _ r hr).1) hfkR,
    copyResponses_length _ _ _ _, ?_, ?_⟩
  · intro i h1 h2
    rw [copyResponses_get _ _ _ _ i h1 h2]
    exact ⟨rfl, rfl, rfl⟩
  · intro r hr r0 hr0
    have h1 := (copyResponses_mem _ _ _ _ r hr).2.2
    have h2 := response_id_lt_fresh hr0
    omega

/-- Sample state for the seeding operation: one take on article 1,
question 1, owning a complete milestone with two responses (sentences 3
then 4, in that order). -/
def seedDB : DB := {
  researches := [1], users := [1, 2],
  articles := [{ id := 1, researchId := 1 }],
  sentences := [{ id := 3, articleId := 1 }, { id := 4, articleId := 1 }],
  profiles := [],
  takes := [{ id := 1, userId := 1, articleId := 1, questionId := 1 }],
  milestones := [{ id := 1, takeId := 1, userId := 1, found := some 5,
                   copied_from := none, response_at := 10 }],
  responses := [{ id := 1, takeId := 1, milestoneId := 1, sentenceId := 3,
                  userId := 1 },
                { id := 2, takeId := 1, milestoneId := 1, sentenceId := 4,
                  userId := 1 }] }

/-- The source milestone the seeding operation copies in `seedDB`. -/
def seedSourceMilestone : Milestone :=
  { id := 1, takeId := 1, userId := 1, found := some 5, copied_from := none,
    response_at := 10 }

/-- Witness for C4 at `seedDB`: creating a take for user 2 on the same
article and question leaves it exactly one milestone. -/
theorem create_take_one_milestone_witness :
    ∃ m, milestonesOf (create_take_with_seed seedDB 2 1 1 20).1
        (create_take_with_seed seedDB 2 1 1 20).2 = [m] ∧
      (createLatest seedDB 1 1 = none → m.found = none ∧
        m.copied_from = none ∧
        responsesOf (create_take_with_seed seedDB 2 1 1 20).1 m = []) ∧
      (∀ lm, createLatest seedDB 1 1 = some lm →
        m.found = lm.found ∧ m.copied_from = some lm.id) :=
  create_take_one_milestone seedDB 2 1 1 20 (by decide) (by decide)

/-- Witness for C5 at `seedDB`: the deep-copy properties hold for the
milestone copied from `seedSourceMilestone`. -/
theorem create_take_deep_copy_witness :
    ∃ m rs, milestonesOf (create_take_with_seed seedDB 2 1 1 20).1
        (create_take_with_seed seedDB 2 1 1 20).2 = [m] ∧
      m.found = seedSourceMilestone.found ∧
      m.copied_from = some seedSourceMilestone.id ∧ m.userId = 2 ∧
      responsesOf (create_take_with_seed seedDB 2 1 1 20).1 m = rs ∧
      rs.length = (responsesOf seedDB seedSourceMilestone).length ∧
      (∀ i (h1 : i < rs.length)
        (h2 : i < (responsesOf seedDB seedSourceMilestone).length),
        (rs.get ⟨i, h1⟩).sentenceId =
          ((responsesOf seedDB seedSourceMilestone).get ⟨i, h2⟩).sentenceId ∧
        (rs.get ⟨i, h1⟩).milestoneId = m.id ∧
        (rs.get ⟨i, h1⟩).userId = 2) ∧
      (∀ r ∈ rs, ∀ r0 ∈ seedDB.responses, r.id ≠ r0.id) :=
  create_take_deep_copy seedDB 2 1 1 20 seedSourceMilestone (by decide)
    (by decide) (by decide)

/-! ### C2: which takes feed the seeding operation's candidate set -/

/-- Sample state refuting C2: the only existing take sits on article 2 with
question 1 and owns an eligible, complete milestone with one response. -/
def crossArticleDB : DB := {
  researches := [1], users := [1, 2],
  articles := [{ id := 1, researchId := 1 }, { id := 2, researchId := 1 }],
  sentences := [{ id := 1, articleId := 2 }],
  profiles := [],
  takes := [{ id := 1, userId := 1, articleId := 2, questionId := 1 }],
  milestones := [{ id := 1, takeId := 1, userId := 1, found := some 5,
                   copied_from := none, response_at := 10 }],
  responses := [{ id := 1, takeId := 1, milestoneId := 1, sentenceId := 1,
                  userId := 1 }] }

/-- The eligible milestone on the different-article take of
`crossArticleDB`. -/
def siblingMilestone : Milestone :=
  { id := 1, takeId := 1, userId := 1, found := some 5, copied_from := none,
    response_at := 10 }

/-- Counterexample to C2: creating a take for user 2 on article 1,
question 1 of `crossArticleDB`.  The Resolver of section 4.2, applied to
the new Take in the resulting state, finds `siblingMilestone` on the
different-article take, so by the claim the seeding operation should have
copied it; but the code filters candidate takes by the SAME article
(src/cq/serializers.py:157-159), finds nothing, and creates an empty
milestone with `copied_from = none` instead. -/
theorem create_seed_source_counterexample :
    resolve_latest_sibling_milestone (create_take_with_seed crossArticleDB 2 1 1 20).1
        (create_take_with_seed crossArticleDB 2 1 1 20).2 = some siblingMilestone ∧
    createLatest crossArticleDB 1 1 = none ∧
    milestonesOf (create_take_with_seed crossArticleDB 2 1 1 20).1
        (create_take_with_seed crossArticleDB 2 1 1 20).2 =
      [{ id := 2, takeId := 2, userId := 2, found := none,
         copied_from := none, response_at := 20 }] := by
  refine ⟨by decide, by decide, by decide⟩

/-- C2 amended: the seeding operation selects its source milestone with the
same greatest-`response_at` fold as the Resolver, but over a different
candidate set: milestones of Takes with the same question AND THE SAME
article as the new Take, eligible when `copied_from = none` and
`found ≠ none` — with no requirement of owning a Response; when the fold
yields a source `lm`, the created take's single milestone points
`copied_from` at it. -/
theorem create_seed_selection (db : DB) (u a q now : Nat)
    (hfkM : ∀ x ∈ db.milestones, ∃ t ∈ db.takes, x.takeId = t.id) :
    (∀ m, m ∈ createCandidates db a q ↔
      ∃ x, x ∈ db.takes ∧ x.articleId = a ∧ x.questionId = q ∧
        m ∈ db.milestones ∧ m.takeId = x.id ∧ m.copied_from = none ∧
        m.found ≠ none) ∧
    (createLatest db a q = none ↔ createCandidates db a q = []) ∧
    (∀ m, createLatest db a q = some m →
      ∃ l₁ l₂, createCandidates db a q = l₁ ++ m :: l₂ ∧
        (∀ b ∈ l₁, b.response_at < m.response_at) ∧
        (∀ b ∈ l₂, b.response_at ≤ m.response_at)) ∧
    (∀ lm, createLatest db a q = some lm →
      ∃ m, milestonesOf (create_take_with_seed db u a q now).1
          (create_take_with_seed db u a q now).2 = [m] ∧
        m.copied_from = some lm.id) := by
  refine ⟨mem_createCandidates db a q, reduceLatest_eq_none _,
    fun _ h => reduceLatest_split h, ?_⟩
  intro lm h
  rw [create_seed_some_eq db u a q now lm h]
  exact ⟨_, milestonesOf_append_fresh db _ _ _ rfl rfl rfl hfkM, rfl⟩

/-- Witness for the amended C2: on article 2 of `crossArticleDB` (the SAME
article as the existing take) the seeding operation does find and link the
source milestone. -/
theorem create_seed_selection_witness :
    ∃ m, milestonesOf (create_take_with_seed crossArticleDB 2 2 1 20).1
        (create_take_with_seed crossArticleDB 2 2 1 20).2 = [m] ∧
      m.copied_from = some siblingMilestone.id :=
  (create_seed_selection crossArticleDB 2 2 1 20 (by decide)).2.2.2
    siblingMilestone (by decide)

/-! ### C10: user creation guards and the assignment step -/

/-- An absent research field filters no row. -/
theorem researchFilter_none (db : DB) : researchFilter db none = [] := by
  unfold researchFilter
  rw [List.filter_eq_nil_iff]
  intro r _
  simp

/-- A research id outside the table filters no row. -/
theorem researchFilter_not_mem (db : DB) {i : Nat} (h : i ∉ db.researches) :
    researchFilter db (some i) = [] := by
  unfold researchFilter
  rw [List.filter_eq_nil_iff]
  intro r hr
  simp only [decide_eq_true_eq]
  intro he
  exact h (he ▸ hr)

/-- A nonempty filter result pins the id inside the table. -/
theorem researchFilter_mem (db : DB) {i : Nat}
    (h : researchFilter db (some i) ≠ []) : i ∈ db.researches := by
  obtain ⟨r, hr⟩ := List.exists_mem_of_ne_nil _ h
  have hx := List.mem_filter.mp hr
  have : r = i := by simpa using hx.2
  exact this ▸ hx.1

/-- C10: if the request's research field is absent or names no existing
Research, `user_create` returns the 400 response with the state unchanged
— no User row is created; and whenever it returns `ok`, the balancer ran:
the new user is the fresh one and its Profile is stored with exactly the
Article the Assignment Balancer chose for the research's articles. -/
theorem user_create_assignment (db : DB) (rf : Option Nat) :
    ((rf = none ∨ ∃ i, rf = some i ∧ i ∉ db.researches) →
      user_create db rf =
        (db, UserCreateResult.badRequest "Select any research type.")) ∧
    (∀ db2 uid, user_create db rf = (db2, UserCreateResult.ok uid) →
      ∃ i target, rf = some i ∧ i ∈ db.researches ∧
        balance_assign (dbWithNewUser db)
          (researchArticles db (researchFilter db rf)) = Except.ok target ∧
        uid = freshUserId db ∧
        db2.profiles = db.profiles ++
          [{ blankProfile db with articleId := some target.id }]) := by
  constructor
  · intro h
    have hfil : researchFilter db rf = [] := by
      rcases h with rfl | ⟨i, rfl, hni⟩
      · exact researchFilter_none db
      · exact researchFilter_not_mem db hni
    unfold user_create
    rw [hfil]
    rfl
  · intro db2 uid h
    by_cases he : (researchFilter db rf).isEmpty = true
    · unfold user_create at h
      rw [if_pos he] at h
      exact absurd (congrArg Prod.snd h) (by simp)
    · have hne : researchFilter db rf ≠ [] := by
        intro hx
        rw [hx] at he
        exact he rfl
      cases rf with
      | none => exact absurd (researchFilter_none db) hne
      | some i =>
        have hmem : i ∈ db.researches := researchFilter_mem db hne
        unfold user_create at h
        rw [if_neg he] at h
        cases hba : balance_assign (dbWithNewUser db)
            (researchArticles db (researchFilter db (some i))) with
        | error e =>
          rw [hba] at h
          exact absurd (congrArg Prod.snd h) (by simp)
        | ok target =>
          rw [hba] at h
          refine ⟨i, target, rfl, hmem, rfl, ?_, ?_⟩
          · have := congrArg Prod.snd h
            simpa using this.symm
          · have := congrArg (fun p => (Prod.fst p).profiles) h
            simpa using this.symm

/-- Witness for C10: the `ok` branch at `sampleBalancerDB` with research 1,
and the guard at an absent research field. -/
theorem user_create_assignment_witness :
    ∃ i target, (some 1 : Option Nat) = some i ∧
      i ∈ sampleBalancerDB.researches ∧
      balance_assign (dbWithNewUser sampleBalancerDB)
        (researchArticles sampleBalancerDB
          (researchFilter sampleBalancerDB (some 1))) = Except.ok target ∧
      4 = freshUserId sampleBalancerDB ∧
      (user_create sampleBalancerDB (some 1)).1.profiles =
        sampleBalancerDB.profiles ++
          [{ blankProfile sampleBalancerDB with articleId := some target.id }] :=
  (user_create_assignment sampleBalancerDB (some 1)).2
    (user_create sampleBalancerDB (some 1)).1 4 (by decide)

end CQ
